import Mathlib

/-!
Verification development for the misconfig-configcommentanalyzer tool.

The source program (src/main.py) is a single linear analysis pipeline:
`analyze_comments` scans raw lines for marker/staleness comments,
`analyze_file_content` resolves the file format, runs the parser, rule
checks and external linters, `find_secrets` runs a credential heuristic,
and `main` sequences everything and chooses the exit status.

The embedding below models text as lists of characters (Python `str`),
file contents as lists of lines, and the outcomes of external effects
(file reads, the YAML/JSON parsers, the external linter subprocesses) as
explicit parameters, so every function is pure and executable.
-/

namespace ConfigAnalyzer

/-- ASCII whitespace recognised by Python's regex class and by str.strip. -/
def isPySpace (c : Char) : Bool :=
  c = ' ' || c = '\t' || c = '\n' || c = '\x0d' || c = '\x0b' || c = '\x0c'

/-- Characters of the regex class [a-zA-Z0-9_-] used by the secret heuristic. -/
def isWordChar (c : Char) : Bool :=
  c.isAlpha || c.isDigit || c = '_' || c = '-'

/-- Python str.lower for the ASCII range, applied characterwise. -/
def lowerStr (s : String) : String :=
  ⟨s.data.map Char.toLower⟩

/-- Python str.strip: drop leading and trailing whitespace. -/
def pyStrip (s : String) : String :=
  ⟨((s.data.dropWhile isPySpace).reverse.dropWhile isPySpace).reverse⟩

/-- Match one comment-introducer token (alternation #, //, /*) at the head
of the text, returning the remaining characters. -/
def introRest : List Char → Option (List Char)
  | '#' :: r => some r
  | '/' :: '/' :: r => some r
  | '/' :: '*' :: r => some r
  | _ => none

def markerKeys : List String := ["TODO", "FIXME", "XXX"]

def staleKeys : List String := ["deprecated", "obsolete", "old"]

def secretKeys : List String := ["api_key", "apikey", "password", "secret"]

/-- The marker-comment regex matched at the current position:
comment introducer, optional whitespace, then TODO, FIXME or XXX
(case-sensitive), as in line 44 of src/main.py. -/
def markerHere (s : List Char) : Bool :=
  match introRest s with
  | some r => markerKeys.any fun kw => List.isPrefixOf kw.data (r.dropWhile isPySpace)
  | none => false

/-- The staleness regex matched at the current position:
comment introducer, optional whitespace, then deprecated, obsolete or old,
case-insensitively, as in line 48 of src/main.py. -/
def staleHere (s : List Char) : Bool :=
  match introRest s with
  | some r =>
      staleKeys.any fun kw =>
        List.isPrefixOf kw.data ((r.dropWhile isPySpace).map Char.toLower)
  | none => false

/-- re.search: try the position pattern at every suffix of the text. -/
def searchB (p : List Char → Bool) : List Char → Bool
  | [] => p []
  | c :: r => p (c :: r) || searchB p r

def markerMatch (line : String) : Bool := searchB markerHere line.data

def staleMatch (line : String) : Bool := searchB staleHere line.data

def quoteChar (c : Char) : Bool :=
  c = '"' || c = Char.ofNat 39

/-- Tail of the secret regex after the key fragment: optional whitespace, a
`:` or `=` separator, optional whitespace, an optional quote, then at least
20 word characters (line 155 of src/main.py). -/
def secretTail (s : List Char) : Bool :=
  match s.dropWhile isPySpace with
  | [] => false
  | c :: r =>
    (c = ':' || c = '=') &&
    (let r2 := r.dropWhile isPySpace
     let r3 := match r2 with
               | q :: rr => if quoteChar q then rr else r2
               | [] => r2
     20 ≤ (r3.takeWhile isWordChar).length)

/-- The secret regex matched at the current position: one of the key
fragments case-insensitively, then `secretTail`. -/
def secretHere (s : List Char) : Bool :=
  secretKeys.any fun kw =>
    List.isPrefixOf kw.data ((s.take kw.data.length).map Char.toLower) &&
    secretTail (s.drop kw.data.length)

def secretMatch (line : String) : Bool := searchB secretHere line.data

/-- Message built at line 45 of src/main.py. -/
def markerMsg (n : Nat) (line : String) : String :=
  "Warning: Potential TODO/FIXME/XXX found on line " ++ toString n ++ ": " ++ pyStrip line

/-- Message built at line 49 of src/main.py. -/
def staleMsg (n : Nat) (line : String) : String :=
  "Warning: Potential outdated comment found on line " ++ toString n ++ ": " ++ pyStrip line

/-- Both per-line checks of analyze_comments, in source order. -/
def lineCommentWarnings (n : Nat) (line : String) : List String :=
  (if markerMatch line then [markerMsg n line] else []) ++
  (if staleMatch line then [staleMsg n line] else [])

def analyzeCommentsFrom (n : Nat) : List String → List String
  | [] => []
  | l :: ls => lineCommentWarnings n l ++ analyzeCommentsFrom (n + 1) ls

/-- analyze_comments of src/main.py on the lines of an already-read file:
enumerate lines 1-based and run the two comment checks on each. -/
def analyze_comments (lines : List String) : List String :=
  analyzeCommentsFrom 1 lines

/-- Message built at line 156 of src/main.py. -/
def secretMsg (n : Nat) (line : String) : String :=
  "Potential secret found on line " ++ toString n ++ ": " ++ pyStrip line

def findSecretsFrom (n : Nat) : List String → List String
  | [] => []
  | l :: ls => (if secretMatch l then [secretMsg n l] else []) ++ findSecretsFrom (n + 1) ls

/-- find_secrets of src/main.py on the lines of an already-read file. -/
def find_secrets (lines : List String) : List String :=
  findSecretsFrom 1 lines

/-- Generic parsed-document tree produced by yaml.safe_load / json.loads. -/
inductive Doc where
  | dict : List (String × Doc) → Doc
  | arr : List Doc → Doc
  | str : String → Doc
  | bool : Bool → Doc
  | num : Int → Doc
  | null : Doc

def lookupKey (k : String) : List (String × Doc) → Option Doc
  | [] => none
  | (k2, v) :: r => if k2 = k then some v else lookupKey k r

/-- The YAML rule of lines 104-106 of src/main.py: top-level dict with
api_version equal to the string v1. -/
def yamlRuleWarnings (d : Doc) : List String :=
  match d with
  | Doc.dict m =>
    match lookupKey "api_version" m with
    | some (Doc.str v) =>
        if v = "v1" then
          ["Warning: api_version is v1, consider upgrading to a newer version."]
        else []
    | some _ => []
    | none => []
  | _ => []

/-- The JSON rule of lines 126-127 of src/main.py: top-level dict with
debug identically True. -/
def jsonRuleWarnings (d : Doc) : List String :=
  match d with
  | Doc.dict m =>
    match lookupKey "debug" m with
    | some (Doc.bool true) => ["Warning: Debug mode is enabled. Disable in production."]
    | _ => []
  | _ => []

/-- Outcome of a completed subprocess.run call on an external linter. -/
structure LintRun where
  exitCode : Int
  stdout : String
  stderr : String

/-- Lines 94-101 of src/main.py; `none` models the executable being absent
(FileNotFoundError from subprocess.run, warnings skipped). -/
def yamllintWarnings (r : Option LintRun) : List String :=
  match r with
  | none => []
  | some res =>
    if res.exitCode ≠ 0 then ["yamllint found issues:\n" ++ res.stdout]
    else if res.stdout ≠ "" then ["yamllint reported:\n" ++ res.stdout]
    else []

/-- Lines 113-123 of src/main.py; jsonlint failures are read from stderr. -/
def jsonlintWarnings (r : Option LintRun) : List String :=
  match r with
  | none => []
  | some res =>
    if res.exitCode ≠ 0 then ["jsonlint found issues:\n" ++ res.stderr]
    else if res.stdout ≠ "" then ["jsonlint reported:\n" ++ res.stdout]
    else []

/-- Python str.endswith, decided on the character lists. -/
def pyEndsWith (s suf : String) : Bool :=
  List.isPrefixOf suf.data.reverse s.data.reverse

/-- Auto-detection of lines 80-88 of src/main.py: lowercase the path and
test the suffixes .yaml/.yml then .json. -/
def autoDetect (filepath : String) : String :=
  if pyEndsWith (lowerStr filepath) ".yaml" || pyEndsWith (lowerStr filepath) ".yml" then "yaml"
  else if pyEndsWith (lowerStr filepath) ".json" then "json"
  else "unknown"

/-- Dispatch on the resolved filetype (lines 90-132 of src/main.py): the
parse outcomes and linter outcomes are the recorded effects of
yaml.safe_load / json.loads and of the subprocess calls. On a parse error
only the parse-error warning is emitted (the linter call and rule check
sit after the parse inside the same try block). -/
def analyzeResolved (ft : String) (yamlParse jsonParse : Except String Doc)
    (yamllintRun jsonlintRun : Option LintRun) : List String :=
  if ft = "yaml" then
    match yamlParse with
    | Except.ok d => yamllintWarnings yamllintRun ++ yamlRuleWarnings d
    | Except.error e => ["Error parsing YAML: " ++ e]
  else if ft = "json" then
    match jsonParse with
    | Except.ok d => jsonlintWarnings jsonlintRun ++ jsonRuleWarnings d
    | Except.error e => ["Error parsing JSON: " ++ e]
  else ["Error: Invalid filetype specified."]

/-- analyze_file_content of src/main.py. `file` is the outcome of opening
and reading the file (`none` models FileNotFoundError). When the declared
filetype is auto and detection fails, the function returns the comment
analysis of the same file and nothing else (line 88). -/
def analyze_file_content (filepath filetype : String) (file : Option (List String))
    (yamlParse jsonParse : Except String Doc)
    (yamllintRun jsonlintRun : Option LintRun) : List String :=
  match file with
  | none => ["Error: File not found."]
  | some lines =>
    if filetype = "auto" then
      if autoDetect filepath = "unknown" then analyze_comments lines
      else analyzeResolved (autoDetect filepath) yamlParse jsonParse yamllintRun jsonlintRun
    else analyzeResolved filetype yamlParse jsonParse yamllintRun jsonlintRun

/-- find_secrets including its own file-open step (lines 151-162). -/
def find_secretsFile (file : Option (List String)) : List String :=
  match file with
  | none => ["Error: File not found."]
  | some lines => find_secrets lines

/-- main of src/main.py as a function from the recorded environment to the
printed analysis results and the process exit status: a missing input file
exits with status 1 after a single error line; otherwise the analysis runs,
the secret scan is appended when requested, and the process exits 0. -/
def mainRun (fileExists : Bool) (filepath filetype : String) (secretFlag : Bool)
    (file : Option (List String)) (yamlParse jsonParse : Except String Doc)
    (yamllintRun jsonlintRun : Option LintRun) : List String × Nat :=
  if fileExists then
    (analyze_file_content filepath filetype file yamlParse jsonParse yamllintRun jsonlintRun
       ++ (if secretFlag then find_secretsFile file else []), 0)
  else
    (["Error: File not found: " ++ filepath], 1)

/-- A warning has a given message prefix (used to classify warnings by
their producing component, since the program emits plain strings). -/
def strHasPre (p w : String) : Bool := List.isPrefixOf p.data w.data

lemma strApp (s t : String) : (s ++ t).data = s.data ++ t.data := by
  cases s; cases t; rfl

lemma isPrefixOf_self_append (l t : List Char) : List.isPrefixOf l (l ++ t) = true := by
  induction l with
  | nil => simp [List.isPrefixOf]
  | cons a as ih => simp [List.isPrefixOf, ih]

lemma isPrefixOf_rfl (l : List Char) : List.isPrefixOf l l = true := by
  simp

lemma isPrefixOf_head_false (a b : Char) (l1 l2 : List Char) (h : (a == b) = false) :
    List.isPrefixOf (a :: l1) (b :: l2) = false := by
  simp [List.isPrefixOf, h]

lemma searchB_suffix (p : List Char → Bool) (u v : List Char) (h : p v = true) :
    searchB p (u ++ v) = true := by
  induction u with
  | nil =>
    cases v with
    | nil => simpa [searchB] using h
    | cons c r => simp [searchB, h]
  | cons c r ih => simp [searchB, ih]

lemma dropWhile_append_all (p : Char → Bool) (a b : List Char)
    (h : ∀ c ∈ a, p c = true) :
    List.dropWhile p (a ++ b) = List.dropWhile p b := by
  induction a with
  | nil => rfl
  | cons c r ih =>
    have hc : p c = true := h c (by simp)
    rw [List.cons_append, List.dropWhile_cons, if_pos hc]
    exact ih fun x hx => h x (by simp [hx])

lemma takeWhile_append_all (p : Char → Bool) (a b : List Char)
    (h : ∀ c ∈ a, p c = true) :
    List.takeWhile p (a ++ b) = a ++ List.takeWhile p b := by
  induction a with
  | nil => rfl
  | cons c r ih =>
    have hc : p c = true := h c (by simp)
    rw [List.cons_append, List.takeWhile_cons, if_pos hc, ih fun x hx => h x (by simp [hx])]
    rfl

lemma isPySpace_isWordChar_false (c : Char) (h : isWordChar c = true) :
    isPySpace c = false := by
  cases hs : isPySpace c with
  | false => rfl
  | true =>
    exfalso
    simp [isPySpace] at hs
    rcases hs with ((((h2|h2)|h2)|h2)|h2)|h2 <;> subst h2 <;> simp [isWordChar] at h

lemma quoteChar_isWordChar_false (c : Char) (h : isWordChar c = true) :
    quoteChar c = false := by
  cases hs : quoteChar c with
  | false => rfl
  | true =>
    exfalso
    simp [quoteChar] at hs
    rcases hs with h2|h2 <;> subst h2 <;> simp [isWordChar] at h

lemma toLower_of_isPySpace (c : Char) (h : isPySpace c = true) : Char.toLower c = c := by
  simp [isPySpace] at h
  rcases h with ((((h|h)|h)|h)|h)|h <;> subst h <;> decide

lemma analyzeCommentsFrom_append (as : List String) (b : String) (cs : List String) :
    ∀ n, analyzeCommentsFrom n (as ++ b :: cs)
      = analyzeCommentsFrom n as ++ lineCommentWarnings (n + as.length) b
          ++ analyzeCommentsFrom (n + as.length + 1) cs := by
  induction as with
  | nil => intro n; simp [analyzeCommentsFrom]
  | cons a r ih =>
    intro n
    have harith : n + 1 + r.length = n + (a :: r).length := by
      simp [List.length_cons]; omega
    rw [List.cons_append]
    show lineCommentWarnings n a ++ analyzeCommentsFrom (n + 1) (r ++ b :: cs) = _
    rw [ih (n + 1), harith]
    show _ = (lineCommentWarnings n a ++ analyzeCommentsFrom (n + 1) r)
        ++ lineCommentWarnings (n + (a :: r).length) b
        ++ analyzeCommentsFrom (n + (a :: r).length + 1) cs
    simp [List.append_assoc]

lemma findSecretsFrom_append (as : List String) (b : String) (cs : List String) :
    ∀ n, findSecretsFrom n (as ++ b :: cs)
      = findSecretsFrom n as ++ (if secretMatch b then [secretMsg (n + as.length) b] else [])
          ++ findSecretsFrom (n + as.length + 1) cs := by
  induction as with
  | nil => intro n; simp [findSecretsFrom]
  | cons a r ih =>
    intro n
    have harith : n + 1 + r.length = n + (a :: r).length := by
      simp [List.length_cons]; omega
    rw [List.cons_append]
    show (if secretMatch a then [secretMsg n a] else []) ++ findSecretsFrom (n + 1) (r ++ b :: cs) = _
    rw [ih (n + 1), harith]
    show _ = ((if secretMatch a then [secretMsg n a] else []) ++ findSecretsFrom (n + 1) r)
        ++ (if secretMatch b then [secretMsg (n + (a :: r).length) b] else [])
        ++ findSecretsFrom (n + (a :: r).length + 1) cs
    simp [List.append_assoc]

lemma markerHere_parts (intro wsp kw rest : String)
    (hi : intro = "#" ∨ intro = "//" ∨ intro = "/*")
    (hw : ∀ c ∈ wsp.data, isPySpace c = true)
    (hk : kw = "TODO" ∨ kw = "FIXME" ∨ kw = "XXX") :
    markerHere (intro.data ++ (wsp.data ++ (kw.data ++ rest.data))) = true := by
  have hdrop : List.dropWhile isPySpace (wsp.data ++ (kw.data ++ rest.data))
      = kw.data ++ rest.data := by
    rw [dropWhile_append_all _ _ _ hw]
    rcases hk with h|h|h <;> subst h <;> rfl
  have hbody : markerKeys.any
      (fun kw2 => List.isPrefixOf kw2.data
        (List.dropWhile isPySpace (wsp.data ++ (kw.data ++ rest.data)))) = true := by
    rw [hdrop, List.any_eq_true]
    refine ⟨kw, ?_, ?_⟩
    · rcases hk with h|h|h <;> subst h <;> simp [markerKeys]
    · exact isPrefixOf_self_append kw.data rest.data
  rcases hi with h|h|h <;> subst h
  · show markerHere ('#' :: (wsp.data ++ (kw.data ++ rest.data))) = true
    simpa [markerHere, introRest] using hbody
  · show markerHere ('/' :: '/' :: (wsp.data ++ (kw.data ++ rest.data))) = true
    simpa [markerHere, introRest] using hbody
  · show markerHere ('/' :: '*' :: (wsp.data ++ (kw.data ++ rest.data))) = true
    simpa [markerHere, introRest] using hbody

lemma markerMatch_parts (pre intro wsp kw rest : String)
    (hi : intro = "#" ∨ intro = "//" ∨ intro = "/*")
    (hw : ∀ c ∈ wsp.data, isPySpace c = true)
    (hk : kw = "TODO" ∨ kw = "FIXME" ∨ kw = "XXX") :
    markerMatch (pre ++ intro ++ wsp ++ kw ++ rest) = true := by
  have hd : (pre ++ intro ++ wsp ++ kw ++ rest).data
      = pre.data ++ (intro.data ++ (wsp.data ++ (kw.data ++ rest.data))) := by
    simp [strApp]
  unfold markerMatch
  rw [hd]
  exact searchB_suffix _ _ _ (markerHere_parts intro wsp kw rest hi hw hk)

lemma staleHere_parts (intro wsp kw rest : String)
    (hi : intro = "#" ∨ intro = "//" ∨ intro = "/*")
    (hw : ∀ c ∈ wsp.data, isPySpace c = true)
    (hk : lowerStr kw = "deprecated" ∨ lowerStr kw = "obsolete" ∨ lowerStr kw = "old") :
    staleHere (intro.data ++ (wsp.data ++ (kw.data ++ rest.data))) = true := by
  have hklow : kw.data.map Char.toLower = (lowerStr kw).data := rfl
  have hkne : ∃ c cs, kw.data = c :: cs ∧ isPySpace c = false := by
    cases hkd : kw.data with
    | nil =>
      exfalso
      rcases hk with h|h|h <;>
        · have := congrArg String.data h
          rw [← hklow, hkd] at this
          simp at this
    | cons c cs =>
      refine ⟨c, cs, rfl, ?_⟩
      cases hcs : isPySpace c with
      | false => rfl
      | true =>
        exfalso
        have hlc := toLower_of_isPySpace c hcs
        rcases hk with h|h|h <;>
          · have := congrArg String.data h
            rw [← hklow, hkd] at this
            simp [hlc] at this
            have := this.1
            subst this
            simp [isPySpace] at hcs
  obtain ⟨c, cs, hkd, hcns⟩ := hkne
  have hdrop : List.dropWhile isPySpace (wsp.data ++ (kw.data ++ rest.data))
      = kw.data ++ rest.data := by
    rw [dropWhile_append_all _ _ _ hw, hkd, List.cons_append, List.dropWhile_cons,
        if_neg (by simp [hcns])]
  have hbody : staleKeys.any
      (fun kw2 => List.isPrefixOf kw2.data
        ((List.dropWhile isPySpace (wsp.data ++ (kw.data ++ rest.data))).map Char.toLower)) = true := by
    rw [hdrop, List.any_eq_true]
    refine ⟨lowerStr kw, ?_, ?_⟩
    · rcases hk with h|h|h <;> rw [h] <;> simp [staleKeys]
    · rw [List.map_append, hklow]
      exact isPrefixOf_self_append (lowerStr kw).data (rest.data.map Char.toLower)
  rcases hi with h|h|h <;> subst h
  · show staleHere ('#' :: (wsp.data ++ (kw.data ++ rest.data))) = true
    simpa [staleHere, introRest] using hbody
  · show staleHere ('/' :: '/' :: (wsp.data ++ (kw.data ++ rest.data))) = true
    simpa [staleHere, introRest] using hbody
  · show staleHere ('/' :: '*' :: (wsp.data ++ (kw.data ++ rest.data))) = true
    simpa [staleHere, introRest] using hbody

lemma staleMatch_parts (pre intro wsp kw rest : String)
    (hi : intro = "#" ∨ intro = "//" ∨ intro = "/*")
    (hw : ∀ c ∈ wsp.data, isPySpace c = true)
    (hk : lowerStr kw = "deprecated" ∨ lowerStr kw = "obsolete" ∨ lowerStr kw = "old") :
    staleMatch (pre ++ intro ++ wsp ++ kw ++ rest) = true := by
  have hd : (pre ++ intro ++ wsp ++ kw ++ rest).data
      = pre.data ++ (intro.data ++ (wsp.data ++ (kw.data ++ rest.data))) := by
    simp [strApp]
  unfold staleMatch
  rw [hd]
  exact searchB_suffix _ _ _ (staleHere_parts intro wsp kw rest hi hw hk)

lemma secretHere_parts (kwd w1 sep w2 tok rest : String)
    (hkwd : lowerStr kwd ∈ secretKeys)
    (hsep : sep = ":" ∨ sep = "=")
    (hw1 : ∀ c ∈ w1.data, isPySpace c = true)
    (hw2 : ∀ c ∈ w2.data, isPySpace c = true)
    (htok : ∀ c ∈ tok.data, isWordChar c = true)
    (hlen : 20 ≤ tok.data.length) :
    secretHere (kwd.data ++ (w1.data ++ (sep.data ++ (w2.data ++ (tok.data ++ rest.data))))) = true := by
  have hklow : kwd.data.map Char.toLower = (lowerStr kwd).data := rfl
  have hklen : (lowerStr kwd).data.length = kwd.data.length := by
    rw [← hklow, List.length_map]
  have htokne : ∃ c cs, tok.data = c :: cs := by
    cases htd : tok.data with
    | nil => rw [htd] at hlen; simp at hlen
    | cons c cs => exact ⟨c, cs, rfl⟩
  obtain ⟨c, cs, htd⟩ := htokne
  have hcw : isWordChar c = true := htok c (by rw [htd]; simp)
  have htail : secretTail (w1.data ++ (sep.data ++ (w2.data ++ (tok.data ++ rest.data)))) = true := by
    have hsd : ∃ s0, sep.data = [s0] ∧ (s0 = ':' ∨ s0 = '=') := by
      rcases hsep with h|h <;> subst h
      · exact ⟨':', rfl, Or.inl rfl⟩
      · exact ⟨'=', rfl, Or.inr rfl⟩
    obtain ⟨s0, hs0, hs0v⟩ := hsd
    have hdrop1 : List.dropWhile isPySpace
        (w1.data ++ (sep.data ++ (w2.data ++ (tok.data ++ rest.data))))
        = s0 :: (w2.data ++ (tok.data ++ rest.data)) := by
      rw [dropWhile_append_all _ _ _ hw1, hs0, List.cons_append, List.dropWhile_cons,
          if_neg (by rcases hs0v with h|h <;> subst h <;> simp [isPySpace])]
      simp
    have hdrop2 : List.dropWhile isPySpace (w2.data ++ (tok.data ++ rest.data))
        = c :: (cs ++ rest.data) := by
      rw [dropWhile_append_all _ _ _ hw2, htd, List.cons_append, List.dropWhile_cons,
          if_neg (by simp [isPySpace_isWordChar_false c hcw])]
    have htake : 20 ≤ (List.takeWhile isWordChar (c :: (cs ++ rest.data))).length := by
      have : (c :: (cs ++ rest.data)) = tok.data ++ rest.data := by rw [htd]; rfl
      rw [this, takeWhile_append_all _ _ _ htok, List.length_append]
      omega
    unfold secretTail
    rw [hdrop1, Bool.and_eq_true]
    refine ⟨by rcases hs0v with h|h <;> subst h <;> simp, ?_⟩
    simpa [hdrop2, quoteChar_isWordChar_false c hcw] using htake
  unfold secretHere
  rw [List.any_eq_true]
  refine ⟨lowerStr kwd, hkwd, ?_⟩
  rw [Bool.and_eq_true]
  constructor
  · rw [hklen, List.take_left, hklow]
    exact isPrefixOf_rfl (lowerStr kwd).data
  · rw [hklen, List.drop_left]
    exact htail

lemma secretMatch_parts (pre kwd w1 sep w2 tok rest : String)
    (hkwd : lowerStr kwd ∈ secretKeys)
    (hsep : sep = ":" ∨ sep = "=")
    (hw1 : ∀ c ∈ w1.data, isPySpace c = true)
    (hw2 : ∀ c ∈ w2.data, isPySpace c = true)
    (htok : ∀ c ∈ tok.data, isWordChar c = true)
    (hlen : 20 ≤ tok.data.length) :
    secretMatch (pre ++ kwd ++ w1 ++ sep ++ w2 ++ tok ++ rest) = true := by
  have hd : (pre ++ kwd ++ w1 ++ sep ++ w2 ++ tok ++ rest).data
      = pre.data ++ (kwd.data ++ (w1.data ++ (sep.data ++ (w2.data ++ (tok.data ++ rest.data))))) := by
    simp [strApp]
  unfold secretMatch
  rw [hd]
  exact searchB_suffix _ _ _ (secretHere_parts kwd w1 sep w2 tok rest hkwd hsep hw1 hw2 htok hlen)

lemma not_hasPre_of_heads (p w : String) (a b : Char) (l m : List Char)
    (hp : p.data = a :: l) (hw : w.data = b :: m) (hne : (a == b) = false) :
    strHasPre p w = false := by
  unfold strHasPre
  rw [hp, hw]
  exact isPrefixOf_head_false a b l m hne

lemma cons_append3 (a : Char) (t x y z : List Char) :
    (((a :: t) ++ x) ++ y) ++ z = a :: (((t ++ x) ++ y) ++ z) := by
  simp

lemma markerMsg_head (n : Nat) (line : String) :
    ∃ t, (markerMsg n line).data = 'W' :: t := by
  refine ⟨("arning: Potential TODO/FIXME/XXX found on line ").data
      ++ (toString n).data ++ (": ").data ++ (pyStrip line).data, ?_⟩
  unfold markerMsg
  rw [strApp, strApp, strApp,
      show ("Warning: Potential TODO/FIXME/XXX found on line ").data
         = 'W' :: ("arning: Potential TODO/FIXME/XXX found on line ").data from rfl,
      cons_append3]

lemma staleMsg_head (n : Nat) (line : String) :
    ∃ t, (staleMsg n line).data = 'W' :: t := by
  refine ⟨("arning: Potential outdated comment found on line ").data
      ++ (toString n).data ++ (": ").data ++ (pyStrip line).data, ?_⟩
  unfold staleMsg
  rw [strApp, strApp, strApp,
      show ("Warning: Potential outdated comment found on line ").data
         = 'W' :: ("arning: Potential outdated comment found on line ").data from rfl,
      cons_append3]

lemma app_head (lit t : String) (b : Char) (m : List Char) (hlit : lit.data = b :: m) :
    (lit ++ t).data = b :: (m ++ t.data) := by
  rw [strApp, hlit]
  rfl

lemma mem_analyzeCommentsFrom (w : String) (ls : List String) :
    ∀ n, w ∈ analyzeCommentsFrom n ls →
      (∃ k l, w = markerMsg k l) ∨ (∃ k l, w = staleMsg k l) := by
  induction ls with
  | nil => intro n h; simp [analyzeCommentsFrom] at h
  | cons a r ih =>
    intro n h
    rw [analyzeCommentsFrom] at h
    rcases List.mem_append.mp h with h1 | h2
    · unfold lineCommentWarnings at h1
      rcases List.mem_append.mp h1 with h3 | h3
      · cases hm : markerMatch a <;> rw [hm] at h3 <;> simp at h3
        exact Or.inl ⟨n, a, h3⟩
      · cases hs : staleMatch a <;> rw [hs] at h3 <;> simp at h3
        exact Or.inr ⟨n, a, h3⟩
    · exact ih (n + 1) h2

/-- Every warning the comment scan emits begins with the comment-scan
message head, so no comment warning is a secret-scan warning. -/
lemma analyze_comments_no_secretMsg (w : String) (ls : List String)
    (h : w ∈ analyze_comments ls) :
    strHasPre "Potential secret found" w = false := by
  rcases mem_analyzeCommentsFrom w ls 1 h with ⟨k, l, hw⟩ | ⟨k, l, hw⟩
  · obtain ⟨t, ht⟩ := markerMsg_head k l
    subst hw
    exact not_hasPre_of_heads _ _ 'P' 'W' ("otential secret found").data t rfl ht (by decide)
  · obtain ⟨t, ht⟩ := staleMsg_head k l
    subst hw
    exact not_hasPre_of_heads _ _ 'P' 'W' ("otential secret found").data t rfl ht (by decide)

lemma mem_yamlRule (w : String) (d : Doc) (h : w ∈ yamlRuleWarnings d) :
    w = "Warning: api_version is v1, consider upgrading to a newer version." := by
  cases d with
  | dict m =>
    cases hl : lookupKey "api_version" m with
    | none => simp [yamlRuleWarnings, hl] at h
    | some v =>
      cases v with
      | str s =>
        by_cases hs : s = "v1"
        · simp [yamlRuleWarnings, hl, hs] at h
          exact h
        · simp [yamlRuleWarnings, hl, hs] at h
      | dict m2 => simp [yamlRuleWarnings, hl] at h
      | arr l => simp [yamlRuleWarnings, hl] at h
      | bool b => simp [yamlRuleWarnings, hl] at h
      | num i => simp [yamlRuleWarnings, hl] at h
      | null => simp [yamlRuleWarnings, hl] at h
  | arr l => simp [yamlRuleWarnings] at h
  | str s => simp [yamlRuleWarnings] at h
  | bool b => simp [yamlRuleWarnings] at h
  | num i => simp [yamlRuleWarnings] at h
  | null => simp [yamlRuleWarnings] at h

lemma mem_jsonRule (w : String) (d : Doc) (h : w ∈ jsonRuleWarnings d) :
    w = "Warning: Debug mode is enabled. Disable in production." := by
  cases d with
  | dict m =>
    cases hl : lookupKey "debug" m with
    | none => simp [jsonRuleWarnings, hl] at h
    | some v =>
      cases v with
      | bool b =>
        cases b with
        | true =>
          simp [jsonRuleWarnings, hl] at h
          exact h
        | false => simp [jsonRuleWarnings, hl] at h
      | dict m2 => simp [jsonRuleWarnings, hl] at h
      | arr l => simp [jsonRuleWarnings, hl] at h
      | str s => simp [jsonRuleWarnings, hl] at h
      | num i => simp [jsonRuleWarnings, hl] at h
      | null => simp [jsonRuleWarnings, hl] at h
  | arr l => simp [jsonRuleWarnings] at h
  | str s => simp [jsonRuleWarnings] at h
  | bool b => simp [jsonRuleWarnings] at h
  | num i => simp [jsonRuleWarnings] at h
  | null => simp [jsonRuleWarnings] at h

lemma mem_yamllint (w : String) (r : Option LintRun) (h : w ∈ yamllintWarnings r) :
    (∃ t, w = "yamllint found issues:\n" ++ t) ∨ (∃ t, w = "yamllint reported:\n" ++ t) := by
  cases r with
  | none => simp [yamllintWarnings] at h
  | some res =>
    by_cases h1 : res.exitCode ≠ 0
    · simp [yamllintWarnings, h1] at h
      exact Or.inl ⟨res.stdout, h⟩
    · by_cases h2 : res.stdout ≠ ""
      · simp [yamllintWarnings, h1, h2] at h
        exact Or.inr ⟨res.stdout, h⟩
      · simp [yamllintWarnings, h1, h2] at h

lemma mem_jsonlint (w : String) (r : Option LintRun) (h : w ∈ jsonlintWarnings r) :
    (∃ t, w = "jsonlint found issues:\n" ++ t) ∨ (∃ t, w = "jsonlint reported:\n" ++ t) := by
  cases r with
  | none => simp [jsonlintWarnings] at h
  | some res =>
    by_cases h1 : res.exitCode ≠ 0
    · simp [jsonlintWarnings, h1] at h
      exact Or.inl ⟨res.stderr, h⟩
    · by_cases h2 : res.stdout ≠ ""
      · simp [jsonlintWarnings, h1, h2] at h
        exact Or.inr ⟨res.stdout, h⟩
      · simp [jsonlintWarnings, h1, h2] at h

/-- Classification of everything the resolved-format branch can emit. -/
lemma mem_analyzeResolved (w ft : String) (yp jp : Except String Doc) (yl jl : Option LintRun)
    (h : w ∈ analyzeResolved ft yp jp yl jl) :
    (∃ t, w = "yamllint found issues:\n" ++ t) ∨ (∃ t, w = "yamllint reported:\n" ++ t) ∨
    (∃ t, w = "jsonlint found issues:\n" ++ t) ∨ (∃ t, w = "jsonlint reported:\n" ++ t) ∨
    w = "Warning: api_version is v1, consider upgrading to a newer version." ∨
    w = "Warning: Debug mode is enabled. Disable in production." ∨
    (∃ t, w = "Error parsing YAML: " ++ t) ∨ (∃ t, w = "Error parsing JSON: " ++ t) ∨
    w = "Error: Invalid filetype specified." := by
  unfold analyzeResolved at h
  by_cases hy : ft = "yaml"
  · rw [if_pos hy] at h
    cases yp with
    | ok d =>
      rcases List.mem_append.mp h with h1 | h1
      · rcases mem_yamllint w yl h1 with h2 | h2
        · exact Or.inl h2
        · exact Or.inr (Or.inl h2)
      · exact Or.inr (Or.inr (Or.inr (Or.inr (Or.inl (mem_yamlRule w d h1)))))
    | error e =>
      simp at h
      exact Or.inr (Or.inr (Or.inr (Or.inr (Or.inr (Or.inr (Or.inl ⟨e, h⟩))))))
  · rw [if_neg hy] at h
    by_cases hj : ft = "json"
    · rw [if_pos hj] at h
      cases jp with
      | ok d =>
        rcases List.mem_append.mp h with h1 | h1
        · rcases mem_jsonlint w jl h1 with h2 | h2
          · exact Or.inr (Or.inr (Or.inl h2))
          · exact Or.inr (Or.inr (Or.inr (Or.inl h2)))
        · exact Or.inr (Or.inr (Or.inr (Or.inr (Or.inr (Or.inl (mem_jsonRule w d h1))))))
      | error e =>
        simp at h
        exact Or.inr (Or.inr (Or.inr (Or.inr (Or.inr (Or.inr (Or.inr (Or.inl ⟨e, h⟩)))))))
    · rw [if_neg hj] at h
      simp at h
      exact Or.inr (Or.inr (Or.inr (Or.inr (Or.inr (Or.inr (Or.inr (Or.inr h)))))))

lemma analyzeResolved_no_secretMsg (w ft : String) (yp jp : Except String Doc)
    (yl jl : Option LintRun) (h : w ∈ analyzeResolved ft yp jp yl jl) :
    strHasPre "Potential secret found" w = false := by
  have hp : ("Potential secret found").data = 'P' :: ("otential secret found").data := rfl
  rcases mem_analyzeResolved w ft yp jp yl jl h with
    ⟨t, ht⟩|⟨t, ht⟩|⟨t, ht⟩|⟨t, ht⟩|ht|ht|⟨t, ht⟩|⟨t, ht⟩|ht <;> subst ht
  · exact not_hasPre_of_heads _ _ 'P' 'y' _ _ hp
      (app_head "yamllint found issues:\n" t 'y' ("amllint found issues:\n").data rfl) (by decide)
  · exact not_hasPre_of_heads _ _ 'P' 'y' _ _ hp
      (app_head "yamllint reported:\n" t 'y' ("amllint reported:\n").data rfl) (by decide)
  · exact not_hasPre_of_heads _ _ 'P' 'j' _ _ hp
      (app_head "jsonlint found issues:\n" t 'j' ("sonlint found issues:\n").data rfl) (by decide)
  · exact not_hasPre_of_heads _ _ 'P' 'j' _ _ hp
      (app_head "jsonlint reported:\n" t 'j' ("sonlint reported:\n").data rfl) (by decide)
  · decide
  · decide
  · exact not_hasPre_of_heads _ _ 'P' 'E' _ _ hp
      (app_head "Error parsing YAML: " t 'E' ("rror parsing YAML: ").data rfl) (by decide)
  · exact not_hasPre_of_heads _ _ 'P' 'E' _ _ hp
      (app_head "Error parsing JSON: " t 'E' ("rror parsing JSON: ").data rfl) (by decide)
  · decide

lemma analyzeResolved_no_commentMsg (w ft : String) (yp jp : Except String Doc)
    (yl jl : Option LintRun) (h : w ∈ analyzeResolved ft yp jp yl jl) :
    strHasPre "Warning: Potential" w = false := by
  have hp : ("Warning: Potential").data = 'W' :: ("arning: Potential").data := rfl
  rcases mem_analyzeResolved w ft yp jp yl jl h with
    ⟨t, ht⟩|⟨t, ht⟩|⟨t, ht⟩|⟨t, ht⟩|ht|ht|⟨t, ht⟩|⟨t, ht⟩|ht <;> subst ht
  · exact not_hasPre_of_heads _ _ 'W' 'y' _ _ hp
      (app_head "yamllint found issues:\n" t 'y' ("amllint found issues:\n").data rfl) (by decide)
  · exact not_hasPre_of_heads _ _ 'W' 'y' _ _ hp
      (app_head "yamllint reported:\n" t 'y' ("amllint reported:\n").data rfl) (by decide)
  · exact not_hasPre_of_heads _ _ 'W' 'j' _ _ hp
      (app_head "jsonlint found issues:\n" t 'j' ("sonlint found issues:\n").data rfl) (by decide)
  · exact not_hasPre_of_heads _ _ 'W' 'j' _ _ hp
      (app_head "jsonlint reported:\n" t 'j' ("sonlint reported:\n").data rfl) (by decide)
  · decide
  · decide
  · exact not_hasPre_of_heads _ _ 'W' 'E' _ _ hp
      (app_head "Error parsing YAML: " t 'E' ("rror parsing YAML: ").data rfl) (by decide)
  · exact not_hasPre_of_heads _ _ 'W' 'E' _ _ hp
      (app_head "Error parsing JSON: " t 'E' ("rror parsing JSON: ").data rfl) (by decide)
  · decide

/-- The full analysis never emits a secret-scan-shaped warning by itself:
secret warnings can enter a result only through find_secrets. -/
lemma analyze_file_content_no_secretMsg (w fp ft : String) (file : Option (List String))
    (yp jp : Except String Doc) (yl jl : Option LintRun)
    (h : w ∈ analyze_file_content fp ft file yp jp yl jl) :
    strHasPre "Potential secret found" w = false := by
  cases file with
  | none =>
    unfold analyze_file_content at h
    simp at h
    subst h
    decide
  | some lines =>
    unfold analyze_file_content at h
    simp only [] at h
    by_cases ha : ft = "auto"
    · rw [if_pos ha] at h
      by_cases hu : autoDetect fp = "unknown"
      · rw [if_pos hu] at h
        exact analyze_comments_no_secretMsg w lines h
      · rw [if_neg hu] at h
        exact analyzeResolved_no_secretMsg w _ yp jp yl jl h
    · rw [if_neg ha] at h
      exact analyzeResolved_no_secretMsg w ft yp jp yl jl h

/-- C1, counterexample: a YAML file whose first line carries a TODO marker
produces an empty analysis result — the comment scan is not run for files
whose format resolves to yaml or json, so its warning for the marker line
is absent from the result, contrary to the claim. -/
theorem C1_counterexample :
    analyze_file_content "c.yaml" "auto" (some ["# TODO fix", "a: 1"])
      (Except.ok (Doc.dict [("a", Doc.num 1)])) (Except.ok Doc.null) none none = [] ∧
    analyze_comments ["# TODO fix", "a: 1"]
      = ["Warning: Potential TODO/FIXME/XXX found on line 1: # TODO fix"] := by
  constructor <;> decide

/-- C1, amended: the line scan runs only when the declared format is auto
and suffix detection fails, in which case the result is exactly the comment
scan output; when the format resolves to yaml or json no comment-scan
warning ever appears in the result. -/
theorem C1_amended (filepath filetype : String) (lines : List String)
    (yp jp : Except String Doc) (yl jl : Option LintRun) :
    (autoDetect filepath = "unknown" →
      analyze_file_content filepath "auto" (some lines) yp jp yl jl = analyze_comments lines) ∧
    ((filetype = "yaml" ∨ filetype = "json") →
      ∀ w ∈ analyze_file_content filepath filetype (some lines) yp jp yl jl,
        strHasPre "Warning: Potential" w = false) := by
  constructor
  · intro hu
    unfold analyze_file_content
    simp only []
    rw [if_pos trivial, if_pos hu]
  · intro hft w hw
    unfold analyze_file_content at hw
    simp only [] at hw
    have hne : ¬ filetype = "auto" := by rcases hft with h|h <;> subst h <;> decide
    rw [if_neg hne] at hw
    exact analyzeResolved_no_commentMsg w filetype yp jp yl jl hw

/-- Witness for C1_amended at a concrete unknown-suffix path and a concrete
yaml-format result. -/
theorem C1_amended_witness :
    analyze_file_content "notes.txt" "auto" (some ["# TODO fix"])
      (Except.ok Doc.null) (Except.ok Doc.null) none none = analyze_comments ["# TODO fix"] ∧
    strHasPre "Warning: Potential"
      "Warning: api_version is v1, consider upgrading to a newer version." = false := by
  constructor
  · exact (C1_amended "notes.txt" "yaml" ["# TODO fix"]
      (Except.ok Doc.null) (Except.ok Doc.null) none none).1 (by decide)
  · exact (C1_amended "c.yaml" "yaml" []
      (Except.ok (Doc.dict [("api_version", Doc.str "v1")])) (Except.ok Doc.null) none none).2
      (Or.inl rfl) _ (by decide)

/-- C2: a line containing a comment introducer, optional whitespace and a
case-sensitive TODO/FIXME/XXX token contributes exactly one marker warning,
placed at its 1-based position, whose message carries the line number and
the stripped line text. -/
theorem C2_marker_warning (as cs : List String) (b pre intro wsp kw rest : String)
    (hi : intro = "#" ∨ intro = "//" ∨ intro = "/*")
    (hw : ∀ c ∈ wsp.data, isPySpace c = true)
    (hk : kw = "TODO" ∨ kw = "FIXME" ∨ kw = "XXX")
    (hb : b = pre ++ intro ++ wsp ++ kw ++ rest) :
    markerMatch b = true ∧
    analyze_comments (as ++ b :: cs)
      = analyzeCommentsFrom 1 as
        ++ markerMsg (as.length + 1) b
           :: ((if staleMatch b then [staleMsg (as.length + 1) b] else [])
               ++ analyzeCommentsFrom (as.length + 2) cs) ∧
    markerMsg (as.length + 1) b
      = "Warning: Potential TODO/FIXME/XXX found on line "
          ++ toString (as.length + 1) ++ ": " ++ pyStrip b := by
  have hm : markerMatch b = true := by
    rw [hb]; exact markerMatch_parts pre intro wsp kw rest hi hw hk
  refine ⟨hm, ?_, rfl⟩
  unfold analyze_comments
  rw [analyzeCommentsFrom_append as b cs 1, Nat.add_comm 1 as.length]
  unfold lineCommentWarnings
  rw [if_pos hm]
  simp [List.append_assoc]

/-- Witness for C2_marker_warning on the single line `# TODO x`. -/
theorem C2_marker_warning_witness :
    markerMatch "# TODO x" = true ∧
    analyze_comments ["# TODO x"]
      = ["Warning: Potential TODO/FIXME/XXX found on line 1: # TODO x"] := by
  have h := C2_marker_warning [] [] "# TODO x" "" "#" " " "TODO" " x"
    (Or.inl rfl) (by decide) (Or.inl rfl) (by decide)
  exact ⟨h.1, h.2.1.trans (by decide)⟩

/-- C3: the YAML rule fires exactly once on api_version = v1 and never on
v2 or on a missing key; the JSON rule fires exactly once on debug = true
and never on false, on an empty document or on a missing key; absence of a
key is a no-op, never an error. -/
theorem C3_rule_engine (m : List (String × Doc)) :
    (lookupKey "api_version" m = some (Doc.str "v1") →
      yamlRuleWarnings (Doc.dict m)
        = ["Warning: api_version is v1, consider upgrading to a newer version."]) ∧
    (lookupKey "api_version" m = some (Doc.str "v2") → yamlRuleWarnings (Doc.dict m) = []) ∧
    (lookupKey "api_version" m = none → yamlRuleWarnings (Doc.dict m) = []) ∧
    (lookupKey "debug" m = none → jsonRuleWarnings (Doc.dict m) = []) ∧
    jsonRuleWarnings (Doc.dict [("debug", Doc.bool true)])
      = ["Warning: Debug mode is enabled. Disable in production."] ∧
    jsonRuleWarnings (Doc.dict [("debug", Doc.bool false)]) = [] ∧
    jsonRuleWarnings (Doc.dict []) = [] := by
  refine ⟨?_, ?_, ?_, ?_, by decide, by decide, by decide⟩
  · intro h; simp [yamlRuleWarnings, h]
  · intro h; simp [yamlRuleWarnings, h]
  · intro h; simp [yamlRuleWarnings, h]
  · intro h; simp [jsonRuleWarnings, h]

/-- Witness for C3_rule_engine on concrete one-key documents. -/
theorem C3_rule_engine_witness :
    yamlRuleWarnings (Doc.dict [("api_version", Doc.str "v1")])
      = ["Warning: api_version is v1, consider upgrading to a newer version."] ∧
    yamlRuleWarnings (Doc.dict [("api_version", Doc.str "v2")]) = [] := by
  constructor
  · exact (C3_rule_engine [("api_version", Doc.str "v1")]).1 rfl
  · exact (C3_rule_engine [("api_version", Doc.str "v2")]).2.1 rfl

/-- C4, counterexample: malformed YAML in a file whose first line carries a
TODO marker yields only the parse-error warning; the comment-scan warning
the claim requires to still be present is absent, because the line scan is
not run for resolved formats. -/
theorem C4_counterexample :
    analyze_file_content "bad.yaml" "auto" (some ["# TODO fix", "a: ["])
      (Except.error "mapping values are not allowed here") (Except.ok Doc.null) none none
      = ["Error parsing YAML: mapping values are not allowed here"] ∧
    analyze_comments ["# TODO fix", "a: ["]
      = ["Warning: Potential TODO/FIXME/XXX found on line 1: # TODO fix"] := by
  constructor <;> decide

/-- C4, amended: malformed YAML (resp. JSON) yields exactly one parse-error
warning and zero rule-engine and linter warnings; no comment-scan warning
is present since the line scan is not run for resolved formats; every
parse error is converted into a warning in the result. -/
theorem C4_amended (fp e : String) (lines : List String) (yp jp : Except String Doc)
    (yl jl : Option LintRun) :
    analyze_file_content fp "yaml" (some lines) (Except.error e) jp yl jl
      = ["Error parsing YAML: " ++ e] ∧
    analyze_file_content fp "json" (some lines) yp (Except.error e) yl jl
      = ["Error parsing JSON: " ++ e] := by
  constructor
  · unfold analyze_file_content
    simp only []
    rw [if_neg (by decide : ¬ ("yaml" : String) = "auto")]
    unfold analyzeResolved
    rw [if_pos rfl]
  · unfold analyze_file_content
    simp only []
    rw [if_neg (by decide : ¬ ("json" : String) = "auto")]
    unfold analyzeResolved
    rw [if_neg (by decide : ¬ ("json" : String) = "yaml"), if_pos rfl]

/-- C5, counterexample: with a present linter that reports issues and a
document firing the api_version rule, the result lists the external-linter
warning before the rule-engine warning, contradicting the claimed
rule-before-linter order. -/
theorem C5_counterexample :
    analyze_file_content "c.yaml" "yaml" (some ["api_version: v1"])
      (Except.ok (Doc.dict [("api_version", Doc.str "v1")])) (Except.ok Doc.null)
      (some ⟨1, "1:1 warning", ""⟩) none
      = ["yamllint found issues:\n1:1 warning",
         "Warning: api_version is v1, consider upgrading to a newer version."] := by
  decide

/-- C5, amended: warnings appear in insertion order with external-linter
findings first, then rule-engine findings, and secret-scan findings
appended last when requested; comment-scan findings appear only (and
alone) when the format is unknown. -/
theorem C5_amended (fp ft : String) (flag : Bool) (lines : List String) (d : Doc)
    (yp jp : Except String Doc) (yl jl : Option LintRun) (file : Option (List String)) :
    analyze_file_content fp "yaml" (some lines) (Except.ok d) jp yl jl
      = yamllintWarnings yl ++ yamlRuleWarnings d ∧
    analyze_file_content fp "json" (some lines) yp (Except.ok d) yl jl
      = jsonlintWarnings jl ++ jsonRuleWarnings d ∧
    (mainRun true fp ft flag file yp jp yl jl).1
      = analyze_file_content fp ft file yp jp yl jl
        ++ (if flag then find_secretsFile file else []) := by
  refine ⟨?_, ?_, rfl⟩
  · unfold analyze_file_content
    simp only []
    rw [if_neg (by decide : ¬ ("yaml" : String) = "auto")]
    unfold analyzeResolved
    rw [if_pos rfl]
  · unfold analyze_file_content
    simp only []
    rw [if_neg (by decide : ¬ ("json" : String) = "auto")]
    unfold analyzeResolved
    rw [if_neg (by decide : ¬ ("json" : String) = "yaml"), if_pos rfl]

/-- C6, counterexample: the line `# TODO deprecated` yields one warning,
not two — the staleness keyword must itself immediately follow a comment
introducer plus optional whitespace, which `deprecated` here does not. -/
theorem C6_counterexample :
    analyze_comments ["# TODO deprecated"]
      = ["Warning: Potential TODO/FIXME/XXX found on line 1: # TODO deprecated"] ∧
    (analyze_comments ["# TODO deprecated"]).length = 1 := by
  constructor <;> decide

/-- C6, amended: the two per-line checks are independent, so a line yields
zero, one or two warnings, one per matching class; a line yields two only
when each keyword follows its own comment introducer, as in
`# TODO // deprecated`. -/
theorem C6_amended (n : Nat) (line : String) :
    (lineCommentWarnings n line).length
      = (if markerMatch line then 1 else 0) + (if staleMatch line then 1 else 0) ∧
    analyze_comments ["# TODO // deprecated"]
      = ["Warning: Potential TODO/FIXME/XXX found on line 1: # TODO // deprecated",
         "Warning: Potential outdated comment found on line 1: # TODO // deprecated"] := by
  constructor
  · unfold lineCommentWarnings
    cases hm : markerMatch line <;> cases hs : staleMatch line <;> simp [hm, hs]
  · decide

/-- C7: a line with a case-insensitive key fragment, an optional-whitespace
separator and a token of at least 20 word characters matches the secret
pattern; each matching line contributes exactly one secret warning at its
1-based position with line number and stripped text in the message; the
documented password line is flagged; with the flag off no secret-scan
warning appears in the result, and with it on the secret warnings are
appended after the analysis warnings. -/
theorem C7_secret_scan (as cs : List String) (b pre kwd w1 sep w2 tok rest fp ft : String)
    (file : Option (List String)) (yp jp : Except String Doc) (yl jl : Option LintRun)
    (hkwd : lowerStr kwd ∈ secretKeys)
    (hsep : sep = ":" ∨ sep = "=")
    (hw1 : ∀ c ∈ w1.data, isPySpace c = true)
    (hw2 : ∀ c ∈ w2.data, isPySpace c = true)
    (htok : ∀ c ∈ tok.data, isWordChar c = true)
    (hlen : 20 ≤ tok.data.length)
    (hb : b = pre ++ kwd ++ w1 ++ sep ++ w2 ++ tok ++ rest) :
    secretMatch b = true ∧
    find_secrets (as ++ b :: cs)
      = findSecretsFrom 1 as
        ++ secretMsg (as.length + 1) b :: findSecretsFrom (as.length + 2) cs ∧
    secretMsg (as.length + 1) b
      = "Potential secret found on line " ++ toString (as.length + 1) ++ ": " ++ pyStrip b ∧
    secretMatch "password = \"abcdefghijklmnopqrstuvwxyz\"" = true ∧
    find_secrets ["password = \"abcdefghijklmnopqrstuvwxyz\""]
      = ["Potential secret found on line 1: password = \"abcdefghijklmnopqrstuvwxyz\""] ∧
    (∀ w ∈ (mainRun true fp ft false file yp jp yl jl).1,
      strHasPre "Potential secret found" w = false) ∧
    (mainRun true fp ft true file yp jp yl jl).1
      = analyze_file_content fp ft file yp jp yl jl ++ find_secretsFile file := by
  have hsec : secretMatch b = true := by
    rw [hb]; exact secretMatch_parts pre kwd w1 sep w2 tok rest hkwd hsep hw1 hw2 htok hlen
  refine ⟨hsec, ?_, rfl, by decide, by decide, ?_, rfl⟩
  · unfold find_secrets
    rw [findSecretsFrom_append as b cs 1, Nat.add_comm 1 as.length, if_pos hsec]
    simp [List.append_assoc]
  · intro w hw
    have hw2b : w ∈ analyze_file_content fp ft file yp jp yl jl := by
      simpa [mainRun] using hw
    exact analyze_file_content_no_secretMsg w fp ft file yp jp yl jl hw2b

/-- Witness for C7_secret_scan on a concrete unquoted assignment line. -/
theorem C7_secret_scan_witness :
    secretMatch "password = abcdefghijklmnopqrstuvwxyz" = true ∧
    find_secrets ["password = abcdefghijklmnopqrstuvwxyz"]
      = ["Potential secret found on line 1: password = abcdefghijklmnopqrstuvwxyz"] := by
  have h := C7_secret_scan [] [] "password = abcdefghijklmnopqrstuvwxyz"
    "" "password" " " "=" " " "abcdefghijklmnopqrstuvwxyz" "" "f.yaml" "auto"
    none (Except.ok Doc.null) (Except.ok Doc.null) none none
    (by decide) (Or.inr rfl) (by decide) (by decide) (by decide) (by decide) (by decide)
  exact ⟨h.1, h.2.1.trans (by decide)⟩

/-- C8: a nonexistent input path yields a result whose only content is the
file-not-found error and exit status 1; an existing path always exits 0;
the analysis itself reports a failed file open as a single error entry. -/
theorem C8_exit_behavior (fp ft : String) (flag : Bool) (file : Option (List String))
    (yp jp : Except String Doc) (yl jl : Option LintRun) :
    mainRun false fp ft flag file yp jp yl jl = (["Error: File not found: " ++ fp], 1) ∧
    (mainRun true fp ft flag file yp jp yl jl).2 = 0 ∧
    analyze_file_content fp ft none yp jp yl jl = ["Error: File not found."] :=
  ⟨rfl, rfl, rfl⟩

/-- C9: auto-detection lowercases the whole path before suffix matching, so
any path whose suffix lowercases to .yaml/.yml resolves to yaml and any
path whose suffix lowercases to .json resolves to json, never unknown. -/
theorem C9_case_insensitive_suffix (p t : String) (h : t.data <:+ p.data) :
    ((lowerStr t = ".yaml" ∨ lowerStr t = ".yml") → autoDetect p = "yaml") ∧
    (lowerStr t = ".json" → autoDetect p = "json") := by
  obtain ⟨u, hu⟩ := h
  have hd : (lowerStr p).data = u.map Char.toLower ++ (lowerStr t).data := by
    show p.data.map Char.toLower = _
    rw [← hu, List.map_append]
    rfl
  constructor
  · intro hl
    have hyend : (pyEndsWith (lowerStr p) ".yaml" || pyEndsWith (lowerStr p) ".yml") = true := by
      rcases hl with hl|hl
      · have : pyEndsWith (lowerStr p) ".yaml" = true := by
          unfold pyEndsWith
          rw [hd, hl, List.reverse_append]
          exact isPrefixOf_self_append _ _
        rw [this]
        simp
      · have : pyEndsWith (lowerStr p) ".yml" = true := by
          unfold pyEndsWith
          rw [hd, hl, List.reverse_append]
          exact isPrefixOf_self_append _ _
        rw [this]
        simp
    unfold autoDetect
    rw [if_pos hyend]
  · intro hl
    rw [hl] at hd
    have hjson : pyEndsWith (lowerStr p) ".json" = true := by
      unfold pyEndsWith
      rw [hd, List.reverse_append]
      exact isPrefixOf_self_append _ _
    have hyaml : pyEndsWith (lowerStr p) ".yaml" = false := by
      unfold pyEndsWith
      rw [hd, List.reverse_append]
      show List.isPrefixOf ('l' :: ['m', 'a', 'y', '.'])
        ('n' :: (['o', 's', 'j', '.'] ++ (u.map Char.toLower).reverse)) = false
      exact isPrefixOf_head_false _ _ _ _ (by decide)
    have hyml : pyEndsWith (lowerStr p) ".yml" = false := by
      unfold pyEndsWith
      rw [hd, List.reverse_append]
      show List.isPrefixOf ('l' :: ['m', 'y', '.'])
        ('n' :: (['o', 's', 'j', '.'] ++ (u.map Char.toLower).reverse)) = false
      exact isPrefixOf_head_false _ _ _ _ (by decide)
    unfold autoDetect
    rw [if_neg (by rw [hyaml, hyml]; simp), if_pos hjson]

/-- Witness for C9_case_insensitive_suffix on mixed-case concrete paths. -/
theorem C9_witness :
    autoDetect "CONFIG.YAML" = "yaml" ∧ autoDetect "data.Json" = "json" :=
  ⟨(C9_case_insensitive_suffix "CONFIG.YAML" ".YAML" ⟨"CONFIG".data, by decide⟩).1
      (Or.inl (by decide)),
   (C9_case_insensitive_suffix "data.Json" ".Json" ⟨"data".data, by decide⟩).2 (by decide)⟩

/-- C10: the staleness keywords match as bare case-insensitive substrings
with no trailing word boundary — any word beginning with them right after
an introducer plus optional whitespace fires the check, e.g.
`# older settings`. -/
theorem C10_stale_no_boundary (n : Nat) (b pre intro wsp kw rest : String)
    (hi : intro = "#" ∨ intro = "//" ∨ intro = "/*")
    (hw : ∀ c ∈ wsp.data, isPySpace c = true)
    (hk : lowerStr kw = "deprecated" ∨ lowerStr kw = "obsolete" ∨ lowerStr kw = "old")
    (hb : b = pre ++ intro ++ wsp ++ kw ++ rest) :
    staleMatch b = true ∧
    staleMsg n b ∈ lineCommentWarnings n b ∧
    analyze_comments ["# older settings"]
      = ["Warning: Potential outdated comment found on line 1: # older settings"] := by
  have hs : staleMatch b = true := by
    rw [hb]; exact staleMatch_parts pre intro wsp kw rest hi hw hk
  refine ⟨hs, ?_, by decide⟩
  unfold lineCommentWarnings
  rw [if_pos hs]
  simp

/-- Witness for C10_stale_no_boundary on the line `# older settings`. -/
theorem C10_witness : staleMatch "# older settings" = true :=
  (C10_stale_no_boundary 1 "# older settings" "" "#" " " "old" "er settings"
    (Or.inl rfl) (by decide) (Or.inr (Or.inr (by decide))) (by decide)).1

end ConfigAnalyzer
